import Mathlib

/-
Verification of the GetOpt repository (a Getopt::Long style command-line
option parser written in Go).  The definitions below are a shallow
embedding of src/getopt.go and of the handler/committer file of the
repository.  Go strings are modelled as lists of characters, Go pointers
as natural-number locations into an explicit store, and the heterogeneous
variadic argument list of GetOptions as a list of a small variant type.
-/

set_option autoImplicit false

namespace GetOpt

/-- Go strings, modelled as lists of characters. -/
abbrev Str := List Char

/-- Convenience conversion from a Lean string literal to the model type. -/
def tk (s : String) : Str := s.toList

/-- One constructor for each distinct error produced by the source
(each errors.New call site, plus the strconv conversion failures). -/
inductive Err where
  | malformedDescriptor
  | typeNotRecognized
  | typeMismatch
  | nameConflict
  | descriptorMustBeString
  | oddNumberOfArguments
  | unrecognized (name : Str)
  | missingArgument
  | convError
  deriving DecidableEq, Repr

/-- The seven destination shapes the type switch in parseOption accepts:
the pointed-to Go types bool, int, \[\]int, float64, \[\]float64, string,
\[\]string. -/
inductive Shape where
  | sBool
  | sInt
  | sIntArr
  | sFloat
  | sFloatArr
  | sStr
  | sStrArr
  deriving DecidableEq, Repr

/-- A runtime value held by a destination.  Go float64 values are
modelled as exact rationals (the repository only converts decimal
literals; IEEE-754 rounding is not modelled). -/
inductive Value where
  | vBool (b : Bool)
  | vInt (n : Int)
  | vFloat (q : Rat)
  | vStr (s : Str)
  | vIntArr (l : List Int)
  | vFloatArr (l : List Rat)
  | vStrArr (l : List Str)
  deriving DecidableEq, Repr

/-- The caller-owned memory the destinations point into. -/
def Store := Nat → Value

/-- Write one location of the store. -/
def Store.set (st : Store) (loc : Nat) (v : Value) : Store :=
  fun n => if n = loc then v else st n

/-- A destination: the static type of the pointer and its location. -/
structure Dest where
  shape : Shape
  loc : Nat
  deriving DecidableEq, Repr

/-- One element of the variadic argument list of GetOptions: a Go string,
a supported pointer, or any other Go value. -/
inductive GoVal where
  | str (s : Str)
  | ptr (d : Dest)
  | other
  deriving DecidableEq, Repr

/-- The characters accepted by the name group of the descriptor pattern
\x5e(\[-_a-zA-Z0-9\]+)(\[=:\]\[bifs\])?(\[!+@\])?$ of the source. -/
def isNameChar (c : Char) : Bool :=
  c == '-' || c == '_' || c.isAlpha || c.isDigit

/-- The optional second group of the descriptor pattern: a type marker
followed by a type letter; returns the captured group and the remaining
input. -/
def matchType2 (r1 : Str) : Str × Str :=
  match r1 with
  | m :: t :: r =>
    if (m == '=' || m == ':') && (t == 'b' || t == 'i' || t == 'f' || t == 's') then
      ([m, t], r)
    else ([], r1)
  | _ => ([], r1)

/-- The optional third group of the descriptor pattern: one modifier
character; returns the captured group and the remaining input. -/
def matchMod3 (r2 : Str) : Str × Str :=
  match r2 with
  | c :: r => if c == '!' || c == '+' || c == '@' then ([c], r) else ([], r2)
  | _ => ([], r2)

/-- Matching of the anchored descriptor pattern of the source, returning
the three capture groups (name, type part, modifier part); an absent
optional group is returned as the empty list.  The name group is a
maximal run of name characters, which agrees with the regular expression
because neither following group can start with a name character. -/
def matchDesc (s : Str) : Option (Str × Str × Str) :=
  let g1 := s.takeWhile isNameChar
  let r1 := s.drop g1.length
  if g1 = [] then none
  else
    let p2 := matchType2 r1
    let p3 := matchMod3 p2.2
    if p3.2 = [] then some (g1, p2.1, p3.1) else none

/-- Modelled from Go strconv.Atoi, restricted to what the repository
relies on: an optional single sign followed by at least one ASCII digit,
spanning the whole string; the 64-bit range check is not modelled. -/
def digitsVal (s : Str) : Option Nat :=
  if s = [] then none
  else if s.all Char.isDigit then
    some (s.foldl (fun a c => a * 10 + (c.toNat - '0'.toNat)) 0)
  else none

/-- Go strconv.Atoi on the model strings. -/
def goAtoi (s : Str) : Option Int :=
  match s with
  | '+' :: rest => (digitsVal rest).map (fun n => (n : Int))
  | '-' :: rest => (digitsVal rest).map (fun n => -(n : Int))
  | _ => (digitsVal s).map (fun n => (n : Int))

/-- Modelled from Go strconv.ParseFloat, restricted to plain decimal
forms (optional sign, digits, optional fractional part, at least one
digit); exponents, hex floats, infinities and IEEE-754 rounding are not
modelled, and the result is an exact rational. -/
def parseDecimal (t : Str) : Option Rat :=
  let ip := t.takeWhile Char.isDigit
  let rest := t.drop ip.length
  let ipv : Nat := ip.foldl (fun a c => a * 10 + (c.toNat - '0'.toNat)) 0
  match rest with
  | [] => if ip = [] then none else some (ipv : Rat)
  | '.' :: fp =>
    if fp.all Char.isDigit && !(ip = [] && fp = []) then
      some ((ipv : Rat) +
        (fp.foldl (fun a c => a * 10 + (c.toNat - '0'.toNat)) 0 : Rat) / ((10 : Rat) ^ fp.length))
    else none
  | _ => none

/-- Go strconv.ParseFloat on the model strings. -/
def goParseFloat (s : Str) : Option Rat :=
  match s with
  | '+' :: t => parseDecimal t
  | '-' :: t => (parseDecimal t).map Neg.neg
  | t => parseDecimal t

/-- The arity classes of the source (optionType). -/
inductive OptType where
  | noArg
  | optionalArg
  | requiredArg
  deriving DecidableEq, Repr

/-- Deferred updates: one constructor per committer instantiation in the
source (optionSimpleCommitter at bool, int, float64 and string,
optionCountingCommitter, and optionArrayCommitter at int, float64 and
string). -/
inductive Committer where
  | setBool (v : Bool) (loc : Nat)
  | setInt (v : Int) (loc : Nat)
  | setFloat (v : Rat) (loc : Nat)
  | setStr (v : Str) (loc : Nat)
  | inc (loc : Nat)
  | pushInt (v : Int) (loc : Nat)
  | pushFloat (v : Rat) (loc : Nat)
  | pushStr (v : Str) (loc : Nat)
  deriving DecidableEq, Repr

/-- Apply one deferred update to the store.  The increment and append
cases read the current value; the fallback branches (a location whose
value does not have the expected constructor) are unreachable through
registration, which binds each handler to a location of its own shape. -/
def Committer.commit : Committer → Store → Store
  | .setBool v loc, st => st.set loc (.vBool v)
  | .setInt v loc, st => st.set loc (.vInt v)
  | .setFloat v loc, st => st.set loc (.vFloat v)
  | .setStr v loc, st => st.set loc (.vStr v)
  | .inc loc, st =>
    st.set loc (match st loc with | .vInt n => .vInt (n + 1) | v => v)
  | .pushInt v loc, st =>
    st.set loc (match st loc with | .vIntArr l => .vIntArr (l ++ [v]) | w => w)
  | .pushFloat v loc, st =>
    st.set loc (match st loc with | .vFloatArr l => .vFloatArr (l ++ [v]) | w => w)
  | .pushStr v loc, st =>
    st.set loc (match st loc with | .vStrArr l => .vStrArr (l ++ [v]) | w => w)

/-- optionCollection.commit: apply the committers in the order they were
appended. -/
def commitList (cs : List Committer) (st : Store) : Store :=
  cs.foldl (fun s c => c.commit s) st

/-- The handler objects of the source, one constructor per handler
struct, each carrying its optionType field and destination location
(optionSimpleHandler also carries the boolean it stores). -/
inductive Handler where
  | simpleH (t : OptType) (value : Bool) (loc : Nat)
  | countingH (t : OptType) (loc : Nat)
  | intH (t : OptType) (loc : Nat)
  | intArrayH (t : OptType) (loc : Nat)
  | floatH (t : OptType) (loc : Nat)
  | floatArrayH (t : OptType) (loc : Nat)
  | stringH (t : OptType) (loc : Nat)
  | stringArrayH (t : OptType) (loc : Nat)
  deriving DecidableEq, Repr

/-- The getType method of each handler. -/
def Handler.getType : Handler → OptType
  | .simpleH t _ _ => t
  | .countingH t _ => t
  | .intH t _ => t
  | .intArrayH t _ => t
  | .floatH t _ => t
  | .floatArrayH t _ => t
  | .stringH t _ => t
  | .stringArrayH t _ => t

/-- The handle method of each handler.  The scalar int, float and string
handlers substitute "0", "0" and "" when called with no argument; the
array handlers index args\[0\] directly in the source (a Go panic on an
empty slice, unreachable because array handlers are always registered
with required arity); that unreachable case is mapped to a conversion
error here. -/
def Handler.handle : Handler → List Str → Except Err Committer
  | .simpleH _ v loc, _ => .ok (.setBool v loc)
  | .countingH _ loc, _ => .ok (.inc loc)
  | .intH _ loc, args =>
    let a := match args with | [] => ['0'] | x :: _ => x
    match goAtoi a with
    | some i => .ok (.setInt i loc)
    | none => .error .convError
  | .intArrayH _ loc, args =>
    match args with
    | [] => .error .convError
    | a :: _ =>
      match goAtoi a with
      | some i => .ok (.pushInt i loc)
      | none => .error .convError
  | .floatH _ loc, args =>
    let a := match args with | [] => ['0'] | x :: _ => x
    match goParseFloat a with
    | some f => .ok (.setFloat f loc)
    | none => .error .convError
  | .floatArrayH _ loc, args =>
    match args with
    | [] => .error .convError
    | a :: _ =>
      match goParseFloat a with
      | some f => .ok (.pushFloat f loc)
      | none => .error .convError
  | .stringH _ loc, args =>
    let a := match args with | [] => [] | x :: _ => x
    .ok (.setStr a loc)
  | .stringArrayH _ loc, args =>
    match args with
    | [] => .error .convError
    | a :: _ => .ok (.pushStr a loc)

/-- The optionCollection struct: the name-keyed handler table and the
list of pending committers. -/
structure OptionCollection where
  handlers : List (Str × Handler)
  committers : List Committer
  deriving DecidableEq, Repr

/-- Lookup in the handler table (Go map lookup; keys are unique because
every insertion is guarded by checkNameConflict). -/
def lookupH : List (Str × Handler) → Str → Option Handler
  | [], _ => none
  | (n, h) :: t, name => if n = name then some h else lookupH t name

/-- newOptionCollection. -/
def newOptionCollection : OptionCollection := ⟨[], []⟩

/-- Insert one handler into the table. -/
def addHandler (oc : OptionCollection) (name : Str) (h : Handler) : OptionCollection :=
  { oc with handlers := (name, h) :: oc.handlers }

/-- negatedName of the source. -/
def negatedName (name : Str) : Str := 'n' :: 'o' :: name

/-- optionCollection.checkNameConflict. -/
def checkNameConflict (oc : OptionCollection) (name : Str) (negatable : Bool) : Except Err Unit :=
  if (lookupH oc.handlers name).isSome then .error .nameConflict
  else if negatable = true ∧ (lookupH oc.handlers (negatedName name)).isSome then
    .error .nameConflict
  else .ok ()

/-- addSimpleHandler. -/
def addSimpleHandler (oc : OptionCollection) (name : Str) (loc : Nat) : OptionCollection :=
  addHandler oc name (.simpleH .noArg true loc)

/-- addNegatableHandler: registers the positive and the negated name,
both against the same location. -/
def addNegatableHandler (oc : OptionCollection) (name : Str) (loc : Nat) : OptionCollection :=
  addHandler (addHandler oc name (.simpleH .noArg true loc))
    (negatedName name) (.simpleH .noArg false loc)

/-- addCountingHandler. -/
def addCountingHandler (oc : OptionCollection) (name : Str) (loc : Nat) : OptionCollection :=
  addHandler oc name (.countingH .noArg loc)

/-- addIntHandler. -/
def addIntHandler (oc : OptionCollection) (name : Str) (loc : Nat) : OptionCollection :=
  addHandler oc name (.intH .requiredArg loc)

/-- addOptionalIntHandler. -/
def addOptionalIntHandler (oc : OptionCollection) (name : Str) (loc : Nat) : OptionCollection :=
  addHandler oc name (.intH .optionalArg loc)

/-- addIntArrayHandler. -/
def addIntArrayHandler (oc : OptionCollection) (name : Str) (loc : Nat) : OptionCollection :=
  addHandler oc name (.intArrayH .requiredArg loc)

/-- addFloatHandler. -/
def addFloatHandler (oc : OptionCollection) (name : Str) (loc : Nat) : OptionCollection :=
  addHandler oc name (.floatH .requiredArg loc)

/-- addOptionalFloatHandler. -/
def addOptionalFloatHandler (oc : OptionCollection) (name : Str) (loc : Nat) : OptionCollection :=
  addHandler oc name (.floatH .optionalArg loc)

/-- addFloatArrayHandler. -/
def addFloatArrayHandler (oc : OptionCollection) (name : Str) (loc : Nat) : OptionCollection :=
  addHandler oc name (.floatArrayH .requiredArg loc)

/-- addStringHandler. -/
def addStringHandler (oc : OptionCollection) (name : Str) (loc : Nat) : OptionCollection :=
  addHandler oc name (.stringH .requiredArg loc)

/-- addOptionalStringHandler. -/
def addOptionalStringHandler (oc : OptionCollection) (name : Str) (loc : Nat) : OptionCollection :=
  addHandler oc name (.stringH .optionalArg loc)

/-- addStringArrayHandler. -/
def addStringArrayHandler (oc : OptionCollection) (name : Str) (loc : Nat) : OptionCollection :=
  addHandler oc name (.stringArrayH .requiredArg loc)

/-- The type probe of parseOption (the first switch on the pointer):
the element-kind character and the array flag of each accepted shape. -/
def shapeInfo : Shape → Char × Bool
  | .sBool => ('b', false)
  | .sInt => ('i', false)
  | .sIntArr => ('i', true)
  | .sFloat => ('f', false)
  | .sFloatArr => ('f', true)
  | .sStr => ('s', false)
  | .sStrArr => ('s', true)

/-- The modifier block of parseOption (lines reading match\[3\]): sets
negatable, counting or dArray from the modifier group; the final branch
(an unexpected modifier character) is unreachable because the pattern
only captures one of the three characters. -/
def parseMods (g3 : Str) : Except Err (Bool × Bool × Bool) :=
  match g3 with
  | [] => .ok (false, false, false)
  | c :: _ =>
    if c = '!' then .ok (true, false, false)
    else if c = '+' then .ok (false, true, false)
    else if c = '@' then .ok (false, false, true)
    else .error .malformedDescriptor

/-- The type block of parseOption (lines reading match\[2\]): the
optional marker and the declared type character, with placeholder
question mark when no type group is present. -/
def parseTypePart (g2 : Str) : Bool × Char :=
  match g2 with
  | m :: t :: _ => (m == ':', t)
  | _ => (false, '?')

/-- The reconciliation chain of parseOption: the six checks between the
descriptor attributes and the probed pointer type, in source order. -/
def reconcile (dType pType : Char) (counting negatable dArray pArray optionalM : Bool) :
    Except Err Unit :=
  if dType ≠ '?' ∧ dType ≠ pType then .error .typeMismatch
  else if counting = true ∧ ¬(pType = 'i' ∧ pArray = false) then .error .typeMismatch
  else if negatable = true ∧ pType ≠ 'b' then .error .typeMismatch
  else if dArray ≠ pArray then .error .typeMismatch
  else if optionalM = true ∧ pArray = true then .error .typeMismatch
  else if optionalM = true ∧ ¬(pType = 'i' ∨ pType = 's' ∨ pType = 'f') then .error .typeMismatch
  else .ok ()

/-- The final switch of parseOption: pick the handler for the shape and
modifiers and insert it. -/
def dispatch (oc : OptionCollection) (name : Str) (negatable counting optionalM : Bool)
    (d : Dest) : OptionCollection :=
  match d.shape with
  | .sBool =>
    if negatable then addNegatableHandler oc name d.loc else addSimpleHandler oc name d.loc
  | .sInt =>
    if counting then addCountingHandler oc name d.loc
    else if optionalM then addOptionalIntHandler oc name d.loc
    else addIntHandler oc name d.loc
  | .sIntArr => addIntArrayHandler oc name d.loc
  | .sFloat =>
    if optionalM then addOptionalFloatHandler oc name d.loc else addFloatHandler oc name d.loc
  | .sFloatArr => addFloatArrayHandler oc name d.loc
  | .sStr =>
    if optionalM then addOptionalStringHandler oc name d.loc else addStringHandler oc name d.loc
  | .sStrArr => addStringArrayHandler oc name d.loc

/-- parseOption of the source: match the descriptor pattern, read the
modifier and type groups, probe the pointer, reconcile, check for name
conflicts, and insert the handler.  The lazily compiled pattern of the
source always compiles, so its compilation error path is not modelled. -/
def parseOption (oc : OptionCollection) (desc : Str) (ptr : GoVal) :
    Except Err OptionCollection :=
  match matchDesc desc with
  | none => .error .malformedDescriptor
  | some (name, g2, g3) =>
    match parseMods g3 with
    | .error e => .error e
    | .ok (negatable, counting, dArray) =>
      let (optionalM, dType) := parseTypePart g2
      match ptr with
      | .ptr d =>
        match reconcile dType (shapeInfo d.shape).1 counting negatable dArray
            (shapeInfo d.shape).2 optionalM with
        | .error e => .error e
        | .ok _ =>
          match checkNameConflict oc name negatable with
          | .error e => .error e
          | .ok _ => .ok (dispatch oc name negatable counting optionalM d)
      | _ => .error .typeNotRecognized

/-- parseOptions of the source: walk the variadic list two elements at a
time; a leftover single element is the odd-number-of-arguments error. -/
def parseOptionsLoop : OptionCollection → List GoVal → Except Err OptionCollection
  | oc, a0 :: a1 :: rest =>
    match a0 with
    | .str d =>
      match parseOption oc d a1 with
      | .error e => .error e
      | .ok oc2 => parseOptionsLoop oc2 rest
    | _ => .error .descriptorMustBeString
  | _, [_] => .error .oddNumberOfArguments
  | oc, [] => .ok oc

/-- Does the token start with the two-character option marker. -/
def hasPre2 (t : Str) : Bool :=
  match t with
  | '-' :: '-' :: _ => true
  | _ => false

/-- The branch of the source loop reached when an option wants a value
but no tokens remain: a required argument is the missing-argument error;
an optional argument runs its handler with no value, and the loop then
exits because the token list is exhausted. -/
def endOfTokens (h : Handler) (acc : List Committer) :
    Except Err (List Str × List Committer) :=
  if h.getType = .requiredArg then .error .missingArgument
  else
    match h.handle [] with
    | .error e => .error e
    | .ok c => .ok ([], acc ++ [c])

/-- The effect of one iteration of the source loop on the scan state: it
either halts the scan with a final result, or continues with an extended
committer list, having consumed only the option token itself (nextSame)
or also the following value token (nextTail). -/
inductive ScanOutcome where
  | halt (res : Except Err (List Str × List Committer))
  | nextSame (acc : List Committer)
  | nextTail (acc : List Committer)

/-- The body of one iteration of the source loop: a token without the
leading marker stops the scan keeping that token, the bare marker stops
the scan consuming it, the stripped text is split at its first equals
sign into name and inline value, the name is resolved in the table, the
value token is selected by the arity chain of the source, and the
handler runs on the selected value. -/
def scanToken (handlers : List (Str × Handler)) (t : Str) (rest : List Str)
    (acc : List Committer) : ScanOutcome :=
  if hasPre2 t = true then
    let name := t.drop 2
    if name = [] then .halt (.ok (rest, acc))
    else
      let namePart := name.takeWhile (fun c => !(c == '='))
      let inline : List Str :=
        if namePart.length < name.length then [name.drop (namePart.length + 1)] else []
      match lookupH handlers namePart with
      | none => .halt (.error (.unrecognized namePart))
      | some h =>
        if h.getType = .noArg then
          match h.handle inline with
          | .error e => .halt (.error e)
          | .ok c => .nextSame (acc ++ [c])
        else if inline ≠ [] then
          match h.handle inline with
          | .error e => .halt (.error e)
          | .ok c => .nextSame (acc ++ [c])
        else if rest = [] then .halt (endOfTokens h acc)
        else if h.getType = .optionalArg ∧ hasPre2 (rest.headD []) = true then
          match h.handle [] with
          | .error e => .halt (.error e)
          | .ok c => .nextSame (acc ++ [c])
        else
          match h.handle [rest.headD []] with
          | .error e => .halt (.error e)
          | .ok c => .nextTail (acc ++ [c])
  else .halt (.ok (t :: rest, acc))

/-- The scanning loop of processArgs: run one iteration on the current
token and continue as it directs.  A nextTail outcome is only produced
when further tokens remain, so its empty arm is dead. -/
def processArgsLoop (handlers : List (Str × Handler)) :
    List Str → List Committer → Except Err (List Str × List Committer)
  | [], acc => .ok ([], acc)
  | t :: rest, acc =>
    match scanToken handlers t rest acc with
    | .halt res => res
    | .nextSame acc2 => processArgsLoop handlers rest acc2
    | .nextTail acc2 =>
      match rest with
      | [] => .ok ([], acc2)
      | _ :: rtail => processArgsLoop handlers rtail acc2

/-- processArgs of the source: run the scanning loop starting from the
committers already in the collection; on success commit every pending
update in order and return the remaining tokens, on any error return
the original token list with the store untouched. -/
def processArgs (oc : OptionCollection) (args : List Str) (st : Store) :
    List Str × Store × Option Err :=
  match processArgsLoop oc.handlers args oc.committers with
  | .error e => (args, st, some e)
  | .ok (rest, cs) => (rest, commitList cs st, none)

/-- GetOptions of the source: register all descriptor and pointer pairs,
then process the argument tokens; a registration error returns the
original token list with the store untouched. -/
def GetOptions (st : Store) (args : List Str) (a : List GoVal) :
    List Str × Store × Option Err :=
  match parseOptionsLoop newOptionCollection a with
  | .error e => (args, st, some e)
  | .ok oc => processArgs oc args st

/-- Is an Except value a success. -/
def isOkE {α : Type} : Except Err α → Bool
  | .ok _ => true
  | .error _ => false

/-- Written from the wording of the spec: the element kind of a
destination shape, as the type letter used by descriptors. -/
def specElemKind : Shape → Char
  | .sBool => 'b'
  | .sInt => 'i'
  | .sIntArr => 'i'
  | .sFloat => 'f'
  | .sFloatArr => 'f'
  | .sStr => 's'
  | .sStrArr => 's'

/-- Written from the wording of the spec: whether a destination shape is
a sequence. -/
def specIsSeq : Shape → Bool
  | .sIntArr => true
  | .sFloatArr => true
  | .sStrArr => true
  | _ => false

/-- Written from the wording of the spec (the reconciliation rules): a
declared type letter differing from the element kind of the destination,
counting without a scalar-integer destination, negatable without a
scalar-boolean destination, declared sequence-ness differing from the
sequence-ness of the destination, or the optional marker used with a
sequence or boolean destination. -/
def specTypeMismatch (dType : Char) (negatable counting optionalM dArray : Bool)
    (sh : Shape) : Prop :=
  (dType ≠ '?' ∧ dType ≠ specElemKind sh) ∨
  (counting = true ∧ sh ≠ .sInt) ∨
  (negatable = true ∧ sh ≠ .sBool) ∨
  (dArray ≠ specIsSeq sh) ∨
  (optionalM = true ∧ (specIsSeq sh = true ∨ sh = .sBool))

/-- A store holding integer zero everywhere, for the concrete runs. -/
def st0 : Store := fun _ => .vInt 0

/-- A store holding a boolean at location one and the integer seven
elsewhere, for the optional-argument concrete run. -/
def stC5 : Store := fun n => if n = 1 then .vBool false else .vInt 7

/-- A store holding an empty integer sequence everywhere, for the
sequence concrete runs. -/
def stArr : Store := fun _ => .vIntArr []

/-- A store holding a nonempty text everywhere, for the text concrete
runs. -/
def stStr : Store := fun _ => .vStr (tk "init")

/-- Helper: taking characters up to the first equals sign leaves a
string without one unchanged. -/
theorem takeWhile_neq_self (n : Str) (hne : '=' ∉ n) :
    n.takeWhile (fun c => !(c == '=')) = n := by
  induction n with
  | nil => rfl
  | cons a t ih =>
    have ha : ¬(a = '=') := fun h => hne (by simp [h])
    have ht : '=' ∉ t := fun h => hne (List.mem_cons_of_mem _ h)
    simp [List.takeWhile_cons, ha, ih ht]

/-- Helper: taking characters up to the first equals sign recovers the
part before it. -/
theorem takeWhile_until_eq (n X : Str) (hne : '=' ∉ n) :
    (n ++ '=' :: X).takeWhile (fun c => !(c == '=')) = n := by
  induction n with
  | nil => simp [List.takeWhile_cons]
  | cons a t ih =>
    have ha : ¬(a = '=') := fun h => hne (by simp [h])
    have ht : '=' ∉ t := fun h => hne (List.mem_cons_of_mem _ h)
    simp [List.takeWhile_cons, ha, ih ht]

/-- Helper: dropping the name and the equals sign recovers the inline
value. -/
theorem drop_after_eq (n X : Str) : (n ++ '=' :: X).drop (n.length + 1) = X := by
  induction n with
  | nil => rfl
  | cons a t ih => simp [List.length_cons, ih]

/-- Helper: no handler ever reports a missing argument from its handle
method; that error comes only from the scanning loop. -/
theorem handle_ne_missing (h : Handler) (args : List Str) :
    h.handle args ≠ .error .missingArgument := by
  cases h <;> cases args <;> simp only [Handler.handle] <;>
    (repeat' split) <;> simp

/-- Helper: one unfolding of the scanning loop on a nonempty token list,
through the generated unfolding equation. -/
theorem loopStep (handlers : List (Str × Handler)) (t : Str) (rest : List Str)
    (acc : List Committer) :
    processArgsLoop handlers (t :: rest) acc =
      match scanToken handlers t rest acc with
      | .halt res => res
      | .nextSame acc2 => processArgsLoop handlers rest acc2
      | .nextTail acc2 =>
        match rest with
        | [] => .ok ([], acc2)
        | _ :: rtail => processArgsLoop handlers rtail acc2 := by
  rw [processArgsLoop.eq_def]

/-- Helper: the scanned name of an option token without an equals sign
is the whole stripped text, and there is no inline value. -/
theorem scanToken_plain (handlers : List (Str × Handler)) (n : Str) (rest : List Str)
    (acc : List Committer) (h : Handler) (hn : n ≠ []) (hne : '=' ∉ n)
    (hl : lookupH handlers n = some h) :
    scanToken handlers ('-' :: '-' :: n) rest acc =
      (if h.getType = .noArg then
        match h.handle [] with
        | .error e => .halt (.error e)
        | .ok c => .nextSame (acc ++ [c])
      else if rest = [] then .halt (endOfTokens h acc)
      else if h.getType = .optionalArg ∧ hasPre2 (rest.headD []) = true then
        match h.handle [] with
        | .error e => .halt (.error e)
        | .ok c => .nextSame (acc ++ [c])
      else
        match h.handle [rest.headD []] with
        | .error e => .halt (.error e)
        | .ok c => .nextTail (acc ++ [c])) := by
  obtain ⟨a, t, rfl⟩ := List.exists_cons_of_ne_nil hn
  simp only [scanToken, hasPre2, List.drop_succ_cons, List.drop_zero,
    takeWhile_neq_self _ hne, lt_self_iff_false, hl, if_true, if_false,
    reduceCtorEq, ite_false, ne_eq, not_true_eq_false]

/-- Helper: the scanned name of an option token with an equals sign is
the part before it, and the part after it is the inline value, used
whatever the arity of the handler. -/
theorem scanToken_inline (handlers : List (Str × Handler)) (n X : Str) (rest : List Str)
    (acc : List Committer) (h : Handler) (hn : n ≠ []) (hne : '=' ∉ n)
    (hl : lookupH handlers n = some h) :
    scanToken handlers ('-' :: '-' :: (n ++ '=' :: X)) rest acc =
      (match h.handle [X] with
        | .error e => .halt (.error e)
        | .ok c => .nextSame (acc ++ [c])) := by
  obtain ⟨a, t, rfl⟩ := List.exists_cons_of_ne_nil hn
  have hTW : (a :: (t ++ '=' :: X)).takeWhile (fun c => !(c == '=')) = a :: t := by
    have := takeWhile_until_eq (a :: t) X hne
    simp only [List.cons_append] at this
    exact this
  have hd : (a :: (t ++ '=' :: X)).drop ((a :: t).length + 1) = X := by
    have := drop_after_eq (a :: t) X
    simp only [List.cons_append] at this
    exact this
  have hcond : (a :: t).length < (a :: (t ++ '=' :: X)).length := by
    simp [List.length_append]
  simp only [List.cons_append, scanToken, hasPre2, List.drop_succ_cons, List.drop_zero,
    hTW, hcond, if_true, hd, hl]
  by_cases hng : h.getType = .noArg
  · simp [hng]
  · simp [hng]

/-- Helper: one scanning step on an option token without inline value,
naming an option with an optional argument, followed by nothing or by a
marker-like token: the handler runs with no value and the following
token is not consumed. -/
theorem loopStep_optional (handlers : List (Str × Handler)) (n : Str) (rest : List Str)
    (acc : List Committer) (h : Handler) (hn : n ≠ []) (hne : '=' ∉ n)
    (hl : lookupH handlers n = some h) (ht : h.getType = .optionalArg)
    (hrest : rest = [] ∨ hasPre2 (rest.headD []) = true) :
    processArgsLoop handlers (('-' :: '-' :: n) :: rest) acc =
      match h.handle [] with
      | .error e => .error e
      | .ok c => processArgsLoop handlers rest (acc ++ [c]) := by
  rw [loopStep, scanToken_plain handlers n rest acc h hn hne hl]
  cases rest with
  | nil =>
    simp only [ht, reduceCtorEq, if_false, if_true, endOfTokens]
    cases hh : h.handle [] with
    | error e => simp
    | ok c => simp [processArgsLoop]
  | cons r0 rtail =>
    have hpre : hasPre2 r0 = true := by
      rcases hrest with hc | hc
      · exact absurd hc (by simp)
      · simpa using hc
    simp only [ht, reduceCtorEq, if_false, List.headD_cons, hpre, and_self, if_true]
    cases hh : h.handle [] with
    | error e => simp
    | ok c => simp

/-- Helper: one scanning step on an option token without inline value,
naming an option with a required argument, with a following token: that
token is consumed and fed to the handler. -/
theorem loopStep_required_consume (handlers : List (Str × Handler)) (n r0 : Str)
    (rtail : List Str) (acc : List Committer) (h : Handler) (hn : n ≠ []) (hne : '=' ∉ n)
    (hl : lookupH handlers n = some h) (ht : h.getType = .requiredArg) :
    processArgsLoop handlers (('-' :: '-' :: n) :: r0 :: rtail) acc =
      match h.handle [r0] with
      | .error e => .error e
      | .ok c => processArgsLoop handlers rtail (acc ++ [c]) := by
  rw [loopStep, scanToken_plain handlers n (r0 :: rtail) acc h hn hne hl]
  simp only [ht, reduceCtorEq, if_false, List.headD_cons]
  cases hh : h.handle [r0] with
  | error e => simp
  | ok c => simp

/-- Helper: one scanning step on an option token without inline value,
naming an option with a required argument, as the last token: the
missing-argument error. -/
theorem loopStep_required_end (handlers : List (Str × Handler)) (n : Str)
    (acc : List Committer) (h : Handler) (hn : n ≠ []) (hne : '=' ∉ n)
    (hl : lookupH handlers n = some h) (ht : h.getType = .requiredArg) :
    processArgsLoop handlers [('-' :: '-' :: n)] acc = .error .missingArgument := by
  rw [loopStep, scanToken_plain handlers n [] acc h hn hne hl]
  simp [ht, endOfTokens]

/-- Helper: one scanning step on an option token with an inline value:
whatever the arity of the handler, the handler runs with exactly the
inline value and no further token is consumed. -/
theorem loopStep_inline (handlers : List (Str × Handler)) (n X : Str) (rest : List Str)
    (acc : List Committer) (h : Handler) (hn : n ≠ []) (hne : '=' ∉ n)
    (hl : lookupH handlers n = some h) :
    processArgsLoop handlers (('-' :: '-' :: (n ++ '=' :: X)) :: rest) acc =
      match h.handle [X] with
      | .error e => .error e
      | .ok c => processArgsLoop handlers rest (acc ++ [c]) := by
  rw [loopStep, scanToken_inline handlers n X rest acc h hn hne hl]
  cases hh : h.handle [X] with
  | error e => simp
  | ok c => simp

/-- C1: a scan that aborts with any error (unrecognized option, missing
required argument, conversion error) returns the original token list as
its remainder and leaves the whole store, hence every bound
destination, at its pre-call value; mutation happens only in the commit
phase, which the model runs only after the loop has fully succeeded. -/
theorem c1_scan_abort_atomic (oc : OptionCollection) (args : List Str) (st : Store) (e : Err)
    (h : (processArgs oc args st).2.2 = some e) :
    (processArgs oc args st).1 = args ∧ (processArgs oc args st).2.1 = st := by
  unfold processArgs at h ⊢
  cases hl : processArgsLoop oc.handlers args oc.committers with
  | error e2 => exact ⟨rfl, rfl⟩
  | ok p => obtain ⟨r, cs⟩ := p; rw [hl] at h; exact Option.noConfusion h

/-- Witness for C1 at a concrete aborting scan. -/
theorem c1_scan_abort_atomic_witness :
    (processArgs newOptionCollection [tk "--boom"] st0).2.2
        = some (.unrecognized (tk "boom")) ∧
      (processArgs newOptionCollection [tk "--boom"] st0).1 = [tk "--boom"] ∧
      (processArgs newOptionCollection [tk "--boom"] st0).2.1 = st0 :=
  ⟨by decide,
   (c1_scan_abort_atomic newOptionCollection [tk "--boom"] st0 (.unrecognized (tk "boom"))
      (by decide)).1,
   (c1_scan_abort_atomic newOptionCollection [tk "--boom"] st0 (.unrecognized (tk "boom"))
      (by decide)).2⟩

/-- C7: a token that is exactly the option marker stops the scan without
error, is itself consumed and not part of the remainder, and every token
after it is returned unchanged; concretely, scanning
\["--flag", "--", "x"\] with a registered no-arg flag sets the flag true
and yields remainder \["x"\]. -/
theorem c7_end_marker :
    (∀ (handlers : List (Str × Handler)) (post : List Str) (acc : List Committer),
        processArgsLoop handlers (tk "--" :: post) acc = .ok (post, acc)) ∧
      (GetOptions st0 [tk "--flag", tk "--", tk "x"]
          [.str (tk "flag"), .ptr ⟨.sBool, 0⟩]).1 = [tk "x"] ∧
      (GetOptions st0 [tk "--flag", tk "--", tk "x"]
          [.str (tk "flag"), .ptr ⟨.sBool, 0⟩]).2.1 0 = .vBool true ∧
      (GetOptions st0 [tk "--flag", tk "--", tk "x"]
          [.str (tk "flag"), .ptr ⟨.sBool, 0⟩]).2.2 = none := by
  refine ⟨?_, by decide, by decide, by decide⟩
  intro handlers post acc
  rfl

/-- Helper: a successful registration walk extended by one dangling
element fails with the odd-number-of-arguments error, whatever the
element is. -/
theorem parseOptionsLoop_snoc (x : GoVal) :
    ∀ (oc : OptionCollection) (l : List GoVal) (oc2 : OptionCollection),
      parseOptionsLoop oc l = .ok oc2 →
      parseOptionsLoop oc (l ++ [x]) = .error .oddNumberOfArguments
  | oc, [], oc2, h => by simp [parseOptionsLoop]
  | oc, [a], oc2, h => by simp [parseOptionsLoop] at h
  | oc, a0 :: a1 :: rest, oc2, h => by
    cases a0 with
    | str d =>
      simp only [parseOptionsLoop, List.cons_append] at h ⊢
      cases hp : parseOption oc d a1 with
      | error e => rw [hp] at h; exact Except.noConfusion h
      | ok oc3 => rw [hp] at h; exact parseOptionsLoop_snoc x oc3 rest oc2 h
    | ptr d =>
      simp only [parseOptionsLoop] at h
      cases h
    | other =>
      simp only [parseOptionsLoop] at h
      cases h

/-- C10: a register-and-scan call whose variadic list has a dangling
final element after successfully registered pairs returns the
odd-number-of-arguments error, the original token list, and an
untouched store; the dangling element is never interpreted. -/
theorem c10_odd_variadic (st : Store) (args : List Str) (pre : List GoVal) (x : GoVal)
    (oc : OptionCollection) (h : parseOptionsLoop newOptionCollection pre = .ok oc) :
    GetOptions st args (pre ++ [x]) = (args, st, some .oddNumberOfArguments) := by
  unfold GetOptions
  rw [parseOptionsLoop_snoc x newOptionCollection pre oc h]

/-- Witness for C10 at a concrete call with three variadic elements. -/
theorem c10_odd_variadic_witness :
    GetOptions st0 [tk "-x", tk "notaflag"]
        [.str (tk "x"), .ptr ⟨.sBool, 0⟩, .str (tk "y")]
      = ([tk "-x", tk "notaflag"], st0, some .oddNumberOfArguments) :=
  c10_odd_variadic st0 [tk "-x", tk "notaflag"] [.str (tk "x"), .ptr ⟨.sBool, 0⟩]
    (.str (tk "y")) (addSimpleHandler newOptionCollection (tk "x") 0) rfl

/-- C5: an optional-argument option of integer, float or text kind, with
no inline value, followed by nothing or by a token starting with the
option marker, does not consume the following token and contributes the
pending update that stores the zero value of its kind; committing that
update stores 0, 0.0 or the empty text; concretely, scanning
\["--value", "--flag"\] with value optional-integer and flag a no-arg
flag sets value 0, sets flag true, and leaves an empty remainder. -/
theorem c5_optional_zero :
    (∀ (handlers : List (Str × Handler)) (n : Str) (rest : List Str)
        (acc : List Committer) (loc : Nat),
        n ≠ [] → '=' ∉ n → (rest = [] ∨ hasPre2 (rest.headD []) = true) →
        ((lookupH handlers n = some (.intH .optionalArg loc) →
            processArgsLoop handlers (('-' :: '-' :: n) :: rest) acc =
              processArgsLoop handlers rest (acc ++ [.setInt 0 loc])) ∧
          (lookupH handlers n = some (.floatH .optionalArg loc) →
            processArgsLoop handlers (('-' :: '-' :: n) :: rest) acc =
              processArgsLoop handlers rest (acc ++ [.setFloat 0 loc])) ∧
          (lookupH handlers n = some (.stringH .optionalArg loc) →
            processArgsLoop handlers (('-' :: '-' :: n) :: rest) acc =
              processArgsLoop handlers rest (acc ++ [.setStr [] loc])))) ∧
      (∀ (st : Store) (loc : Nat),
        (Committer.setInt 0 loc).commit st loc = .vInt 0 ∧
          (Committer.setFloat 0 loc).commit st loc = .vFloat 0 ∧
          (Committer.setStr [] loc).commit st loc = .vStr []) ∧
      (GetOptions stC5 [tk "--value", tk "--flag"]
          [.str (tk "value:i"), .ptr ⟨.sInt, 0⟩, .str (tk "flag"), .ptr ⟨.sBool, 1⟩]).1
        = [] ∧
      (GetOptions stC5 [tk "--value", tk "--flag"]
          [.str (tk "value:i"), .ptr ⟨.sInt, 0⟩, .str (tk "flag"), .ptr ⟨.sBool, 1⟩]).2.1 0
        = .vInt 0 ∧
      (GetOptions stC5 [tk "--value", tk "--flag"]
          [.str (tk "value:i"), .ptr ⟨.sInt, 0⟩, .str (tk "flag"), .ptr ⟨.sBool, 1⟩]).2.1 1
        = .vBool true ∧
      (GetOptions stC5 [tk "--value", tk "--flag"]
          [.str (tk "value:i"), .ptr ⟨.sInt, 0⟩, .str (tk "flag"), .ptr ⟨.sBool, 1⟩]).2.2
        = none := by
  refine ⟨?_, ?_, by decide, by decide, by decide, by decide⟩
  · intro handlers n rest acc loc hn hne hrest
    refine ⟨fun hl => ?_, fun hl => ?_, fun hl => ?_⟩
    · rw [loopStep_optional handlers n rest acc _ hn hne hl rfl hrest]
      have hh : (Handler.intH .optionalArg loc).handle [] = .ok (.setInt 0 loc) := by
        have hgo : goAtoi ['0'] = some 0 := by decide
        simp [Handler.handle, hgo]
      rw [hh]
    · rw [loopStep_optional handlers n rest acc _ hn hne hl rfl hrest]
      have hh : (Handler.floatH .optionalArg loc).handle [] = .ok (.setFloat 0 loc) := by
        have hgo : goParseFloat ['0'] = some 0 := by decide
        simp [Handler.handle, hgo]
      rw [hh]
    · rw [loopStep_optional handlers n rest acc _ hn hne hl rfl hrest]
      have hh : (Handler.stringH .optionalArg loc).handle [] = .ok (.setStr [] loc) := by
        simp [Handler.handle]
      rw [hh]
  · intro st loc
    refine ⟨?_, ?_, ?_⟩ <;> simp [Committer.commit, Store.set]

/-- Witness for C5 at a concrete optional-integer step with a flag-like
next token. -/
theorem c5_optional_zero_witness :
    processArgsLoop [(tk "value", .intH .optionalArg 0)] [tk "--value", tk "--flag"] [] =
      processArgsLoop [(tk "value", .intH .optionalArg 0)] [tk "--flag"] [.setInt 0 0] :=
  ((c5_optional_zero.1 [(tk "value", .intH .optionalArg 0)] (tk "value") [tk "--flag"] [] 0
      (by decide) (by decide) (Or.inr (by decide))).1 rfl)

/-- C6: commit applies the pending updates in exactly the order the scan
produced them: committing a concatenation runs the earlier block first,
a final scalar set leaves exactly its value (last occurrence wins), and
a final sequence append adds at the end (encounter order); concretely,
scanning \["--value", "5", "--value=3"\] yields the sequence \[5, 3\]
for an integer-sequence option and the value 3 for a scalar-integer
option. -/
theorem c6_commit_in_order :
    (∀ (cs1 cs2 : List Committer) (st : Store),
        commitList (cs1 ++ cs2) st = commitList cs2 (commitList cs1 st)) ∧
      (∀ (cs : List Committer) (v : Int) (loc : Nat) (st : Store),
        commitList (cs ++ [.setInt v loc]) st loc = .vInt v) ∧
      (∀ (cs : List Committer) (v : Int) (loc : Nat) (st : Store) (l : List Int),
        commitList cs st loc = .vIntArr l →
          commitList (cs ++ [.pushInt v loc]) st loc = .vIntArr (l ++ [v])) ∧
      (GetOptions stArr [tk "--value", tk "5", tk "--value=3"]
          [.str (tk "value=i@"), .ptr ⟨.sIntArr, 0⟩]).2.1 0 = .vIntArr [5, 3] ∧
      (GetOptions stArr [tk "--value", tk "5", tk "--value=3"]
          [.str (tk "value=i@"), .ptr ⟨.sIntArr, 0⟩]).1 = [] ∧
      (GetOptions stArr [tk "--value", tk "5", tk "--value=3"]
          [.str (tk "value=i@"), .ptr ⟨.sIntArr, 0⟩]).2.2 = none ∧
      (GetOptions st0 [tk "--value", tk "5", tk "--value=3"]
          [.str (tk "value=i"), .ptr ⟨.sInt, 0⟩]).2.1 0 = .vInt 3 := by
  have happ : ∀ (cs1 cs2 : List Committer) (st : Store),
      commitList (cs1 ++ cs2) st = commitList cs2 (commitList cs1 st) := by
    intro cs1 cs2 st
    simp [commitList, List.foldl_append]
  refine ⟨happ, ?_, ?_, by decide, by decide, by decide, by decide⟩
  · intro cs v loc st
    rw [happ]
    simp [commitList, Committer.commit, Store.set]
  · intro cs v loc st l hcs
    rw [happ]
    show (Committer.pushInt v loc).commit (commitList cs st) loc = _
    simp [Committer.commit, Store.set, hcs]

/-- Witness for C6 at a concrete committer list with an earlier set and
a final append. -/
theorem c6_commit_in_order_witness :
    commitList [.setInt 7 1, .pushInt 4 0] stArr 0 = .vIntArr ([] ++ [4]) :=
  c6_commit_in_order.2.2.1 [.setInt 7 1] 4 0 stArr [] (by decide)

/-- C8: for a registered scalar required-argument option, the inline
form and the separate form of passing the same value token produce the
same error status and the same final store, and, when the scan
succeeds, the same remainder; concretely, a required-text option stores
the value and leaves an empty remainder under both forms. -/
theorem c8_inline_separate (oc : OptionCollection) (n X : Str) (rest : List Str)
    (st : Store) (h : Handler) (hn : n ≠ []) (hne : '=' ∉ n)
    (hl : lookupH oc.handlers n = some h) (ht : h.getType = .requiredArg)
    (_hX : hasPre2 X = false) :
    ((processArgs oc (('-' :: '-' :: (n ++ '=' :: X)) :: rest) st).2.2
        = (processArgs oc (('-' :: '-' :: n) :: X :: rest) st).2.2) ∧
      ((processArgs oc (('-' :: '-' :: (n ++ '=' :: X)) :: rest) st).2.1
        = (processArgs oc (('-' :: '-' :: n) :: X :: rest) st).2.1) ∧
      ((processArgs oc (('-' :: '-' :: (n ++ '=' :: X)) :: rest) st).2.2 = none →
        (processArgs oc (('-' :: '-' :: (n ++ '=' :: X)) :: rest) st).1
          = (processArgs oc (('-' :: '-' :: n) :: X :: rest) st).1) ∧
      (GetOptions stStr [tk "--name=v"] [.str (tk "name=s"), .ptr ⟨.sStr, 0⟩]).1 = [] ∧
      (GetOptions stStr [tk "--name=v"] [.str (tk "name=s"), .ptr ⟨.sStr, 0⟩]).2.1 0
        = .vStr (tk "v") ∧
      (GetOptions stStr [tk "--name=v"] [.str (tk "name=s"), .ptr ⟨.sStr, 0⟩]).2.2 = none ∧
      (GetOptions stStr [tk "--name", tk "v"] [.str (tk "name=s"), .ptr ⟨.sStr, 0⟩]).1
        = [] ∧
      (GetOptions stStr [tk "--name", tk "v"] [.str (tk "name=s"), .ptr ⟨.sStr, 0⟩]).2.1 0
        = .vStr (tk "v") ∧
      (GetOptions stStr [tk "--name", tk "v"] [.str (tk "name=s"), .ptr ⟨.sStr, 0⟩]).2.2
        = none := by
  have key : processArgsLoop oc.handlers (('-' :: '-' :: (n ++ '=' :: X)) :: rest)
        oc.committers
      = processArgsLoop oc.handlers (('-' :: '-' :: n) :: X :: rest) oc.committers := by
    rw [loopStep_inline oc.handlers n X rest oc.committers h hn hne hl,
      loopStep_required_consume oc.handlers n X rest oc.committers h hn hne hl ht]
  refine ⟨?_, ?_, ?_, by decide, by decide, by decide, by decide, by decide, by decide⟩
  · unfold processArgs
    rw [key]
    cases processArgsLoop oc.handlers (('-' :: '-' :: n) :: X :: rest) oc.committers with
    | error e => rfl
    | ok p => obtain ⟨r, cs⟩ := p; rfl
  · unfold processArgs
    rw [key]
    cases processArgsLoop oc.handlers (('-' :: '-' :: n) :: X :: rest) oc.committers with
    | error e => rfl
    | ok p => obtain ⟨r, cs⟩ := p; rfl
  · unfold processArgs
    rw [key]
    cases processArgsLoop oc.handlers (('-' :: '-' :: n) :: X :: rest) oc.committers with
    | error e => exact fun hc => absurd hc (by simp)
    | ok p => obtain ⟨r, cs⟩ := p; exact fun _ => rfl

/-- Witness for C8 at a concrete required-integer option. -/
theorem c8_inline_separate_witness :
    (processArgs ⟨[(tk "num", .intH .requiredArg 0)], []⟩ [tk "--num=4"] st0).2.2
        = (processArgs ⟨[(tk "num", .intH .requiredArg 0)], []⟩ [tk "--num", tk "4"]
            st0).2.2 ∧
      (processArgs ⟨[(tk "num", .intH .requiredArg 0)], []⟩ [tk "--num=4"] st0).2.1
        = (processArgs ⟨[(tk "num", .intH .requiredArg 0)], []⟩ [tk "--num", tk "4"]
            st0).2.1 :=
  ⟨(c8_inline_separate ⟨[(tk "num", .intH .requiredArg 0)], []⟩ (tk "num") (tk "4") [] st0
      (.intH .requiredArg 0) (by decide) (by decide) rfl rfl (by decide)).1,
   (c8_inline_separate ⟨[(tk "num", .intH .requiredArg 0)], []⟩ (tk "num") (tk "4") [] st0
      (.intH .requiredArg 0) (by decide) (by decide) rfl rfl (by decide)).2.1⟩

/-- C9: an empty inline value counts as a present value: a single option
token carrying an inline value never aborts with the missing-argument
error (handlers never produce it), while a required-argument option as
the last token with no inline value does; concretely, "--name=" stores
the empty text for a required-text option, and aborts with a conversion
error, not a missing argument, for required-integer and required-float
options, leaving the store and token list untouched. -/
theorem c9_empty_inline_value (handlers : List (Str × Handler)) (n X : Str)
    (acc : List Committer) (h : Handler) (hn : n ≠ []) (hne : '=' ∉ n)
    (hl : lookupH handlers n = some h) :
    (processArgsLoop handlers [('-' :: '-' :: (n ++ '=' :: X))] acc
        ≠ .error .missingArgument) ∧
      (h.getType = .requiredArg →
        processArgsLoop handlers [('-' :: '-' :: n)] acc = .error .missingArgument) ∧
      (GetOptions stStr [tk "--name="] [.str (tk "name=s"), .ptr ⟨.sStr, 0⟩]).1 = [] ∧
      (GetOptions stStr [tk "--name="] [.str (tk "name=s"), .ptr ⟨.sStr, 0⟩]).2.1 0
        = .vStr [] ∧
      (GetOptions stStr [tk "--name="] [.str (tk "name=s"), .ptr ⟨.sStr, 0⟩]).2.2 = none ∧
      (GetOptions st0 [tk "--name="] [.str (tk "name=i"), .ptr ⟨.sInt, 0⟩]).2.2
        = some .convError ∧
      (GetOptions st0 [tk "--name="] [.str (tk "name=i"), .ptr ⟨.sInt, 0⟩]).1
        = [tk "--name="] ∧
      (GetOptions st0 [tk "--name="] [.str (tk "name=i"), .ptr ⟨.sInt, 0⟩]).2.1 = st0 ∧
      (GetOptions st0 [tk "--name="] [.str (tk "name=f"), .ptr ⟨.sFloat, 0⟩]).2.2
        = some .convError := by
  refine ⟨?_, ?_, by decide, by decide, by decide, by decide, by decide, rfl, by decide⟩
  · rw [loopStep_inline handlers n X [] acc h hn hne hl]
    cases hh : h.handle [X] with
    | error e =>
      intro hcon
      injection hcon with he
      exact handle_ne_missing h [X] (by rw [hh, he])
    | ok c => simp [processArgsLoop]
  · intro ht
    exact loopStep_required_end handlers n acc h hn hne hl ht

/-- Helper: the negated alias of a name is never the name itself. -/
theorem negatedName_ne (name : Str) : negatedName name ≠ name := by
  intro h
  have hlen := congrArg List.length h
  simp only [negatedName, List.length_cons] at hlen
  omega

/-- Helper: the reconciliation chain only lets a negatable descriptor
through when the probed element kind is boolean. -/
theorem reconcile_ok_negatable (dT pT : Char) (cnt dArr pArr optM : Bool)
    (h : reconcile dT pT cnt true dArr pArr optM = .ok ()) : pT = 'b' := by
  by_contra hb
  unfold reconcile at h
  by_cases h1 : dT ≠ '?' ∧ dT ≠ pT
  · simp [h1] at h
  · by_cases h2 : cnt = true ∧ ¬(pT = 'i' ∧ pArr = false)
    · simp [h1, h2] at h
    · simp [h1, h2, hb] at h

/-- C4: registering an option name already present in the table fails
with the name-conflict error, whatever the destination; a new negatable
flag also conflicts with an already-present negated alias; and a
successful negatable registration reserves both its name and its
negated alias, so any later registration of either conflicts.  The
conflict check runs before any handler is inserted: the failing calls
return an error and no new collection. -/
theorem c4_name_conflict :
    (∀ (oc : OptionCollection) (desc : Str) (ptr : GoVal) (name g2 g3 : Str),
        matchDesc desc = some (name, g2, g3) →
        isOkE (parseOption newOptionCollection desc ptr) = true →
        (lookupH oc.handlers name).isSome = true →
        parseOption oc desc ptr = .error .nameConflict) ∧
      (∀ (oc : OptionCollection) (desc : Str) (ptr : GoVal) (name g2 : Str),
        matchDesc desc = some (name, g2, ['!']) →
        isOkE (parseOption newOptionCollection desc ptr) = true →
        (lookupH oc.handlers (negatedName name)).isSome = true →
        parseOption oc desc ptr = .error .nameConflict) ∧
      (∀ (oc oc2 : OptionCollection) (desc : Str) (ptr : GoVal) (name g2 : Str),
        matchDesc desc = some (name, g2, ['!']) →
        parseOption oc desc ptr = .ok oc2 →
        (lookupH oc2.handlers name).isSome = true ∧
          (lookupH oc2.handlers (negatedName name)).isSome = true) := by
  refine ⟨?_, ?_, ?_⟩
  · intro oc desc ptr name g2 g3 hm hok hlk
    unfold parseOption at hok ⊢
    simp only [hm] at hok ⊢
    cases hmods : parseMods g3 with
    | error e => simp [hmods, isOkE] at hok
    | ok trip =>
      obtain ⟨neg, cnt, dArr⟩ := trip
      simp only [hmods] at hok ⊢
      cases hpt : parseTypePart g2 with
      | mk optM dT =>
        simp only [hpt] at hok ⊢
        cases ptr with
        | str s => simp [isOkE] at hok
        | other => simp [isOkE] at hok
        | ptr d =>
          cases hrec : reconcile dT (shapeInfo d.shape).1 cnt neg dArr
              (shapeInfo d.shape).2 optM with
          | error e => simp [hrec, isOkE] at hok
          | ok u => simp [hrec, checkNameConflict, hlk]
  · intro oc desc ptr name g2 hm hok hlk
    unfold parseOption at hok ⊢
    simp only [hm] at hok ⊢
    have hmods : parseMods ['!'] = .ok (true, false, false) := rfl
    simp only [hmods] at hok ⊢
    cases hpt : parseTypePart g2 with
    | mk optM dT =>
      simp only [hpt] at hok ⊢
      cases ptr with
      | str s => simp [isOkE] at hok
      | other => simp [isOkE] at hok
      | ptr d =>
        cases hrec : reconcile dT (shapeInfo d.shape).1 false true false
            (shapeInfo d.shape).2 optM with
        | error e => simp [hrec, isOkE] at hok
        | ok u =>
          by_cases hfst : (lookupH oc.handlers name).isSome = true
          · simp [hrec, checkNameConflict, hfst]
          · simp [hrec, checkNameConflict, hfst, hlk]
  · intro oc oc2 desc ptr name g2 hm hok2
    unfold parseOption at hok2
    simp only [hm] at hok2
    have hmods : parseMods ['!'] = .ok (true, false, false) := rfl
    simp only [hmods] at hok2
    cases hpt : parseTypePart g2 with
    | mk optM dT =>
      simp only [hpt] at hok2
      cases ptr with
      | str s => exact absurd hok2 (by simp)
      | other => exact absurd hok2 (by simp)
      | ptr d =>
        obtain ⟨sh, loc⟩ := d
        cases hrec : reconcile dT (shapeInfo sh).1 false true false
            (shapeInfo sh).2 optM with
        | error e => simp [hrec] at hok2
        | ok u =>
          simp only [hrec] at hok2
          cases hcnf : checkNameConflict oc name true with
          | error e => simp [hcnf] at hok2
          | ok v =>
            simp only [hcnf] at hok2
            have hb : (shapeInfo sh).1 = 'b' :=
              reconcile_ok_negatable dT (shapeInfo sh).1 false false
                (shapeInfo sh).2 optM hrec
            have hsh : sh = .sBool := by
              cases sh with
              | sBool => rfl
              | sInt => exact absurd hb (by decide)
              | sIntArr => exact absurd hb (by decide)
              | sFloat => exact absurd hb (by decide)
              | sFloatArr => exact absurd hb (by decide)
              | sStr => exact absurd hb (by decide)
              | sStrArr => exact absurd hb (by decide)
            subst hsh
            have hoc : oc2 = dispatch oc name true false optM ⟨.sBool, loc⟩ := by
              injection hok2 with h2
              exact h2.symm
            subst hoc
            constructor
            · simp [dispatch, addNegatableHandler, addHandler, addSimpleHandler, lookupH,
                negatedName_ne name]
            · simp [dispatch, addNegatableHandler, addHandler, addSimpleHandler, lookupH]

/-- Helper: the third capture group is empty or a single modifier
character. -/
theorem matchMod3_fst (r : Str) :
    (matchMod3 r).1 = [] ∨ (matchMod3 r).1 = ['!'] ∨ (matchMod3 r).1 = ['+'] ∨
      (matchMod3 r).1 = ['@'] := by
  cases r with
  | nil => simp [matchMod3]
  | cons c t =>
    by_cases h1 : c = '!'
    · simp [matchMod3, h1]
    · by_cases h2 : c = '+'
      · simp [matchMod3, h2]
      · by_cases h3 : c = '@'
        · simp [matchMod3, h3]
        · simp [matchMod3, h1, h2, h3]

/-- Helper: a parsed descriptor carries at most one of the three
modifier characters, the third capture group being a single character or
absent. -/
theorem matchDesc_g3 (s n g2 g3 : Str) (h : matchDesc s = some (n, g2, g3)) :
    g3 = [] ∨ g3 = ['!'] ∨ g3 = ['+'] ∨ g3 = ['@'] := by
  simp only [matchDesc] at h
  by_cases h1 : s.takeWhile isNameChar = []
  · simp [h1] at h
  · simp only [h1, if_false] at h
    by_cases h2 :
        (matchMod3 (matchType2 (s.drop (s.takeWhile isNameChar).length)).2).2 = []
    · simp only [h2, if_true] at h
      simp only [Option.some.injEq, Prod.mk.injEq] at h
      obtain ⟨hn, hg2, hg3⟩ := h
      rw [← hg3]
      exact matchMod3_fst _
    · simp [h2] at h

/-- C2 counterexample: the descriptor "flag=b!" is not rejected by the
grammar; bound to a scalar-bool destination it registers successfully
as a negatable flag, and the grammar also parses "flag:b!", whose
parsed form carries both the optional marker and the negatable
modifier. -/
theorem c2_grammar_counterexample :
    parseOption newOptionCollection (tk "flag=b!") (.ptr ⟨.sBool, 0⟩)
        = .ok (addNegatableHandler newOptionCollection (tk "flag") 0) ∧
      matchDesc (tk "flag:b!") = some (tk "flag", tk ":b", tk "!") :=
  ⟨rfl, by decide⟩

/-- C2 as amended: the descriptor grammar accepts a type-marker group
combined with a modifier character; "flag=b!" parses and, with a
scalar-bool destination, registers successfully as a negatable flag,
while an incompatible combination such as "flag=b!" with an integer
destination is rejected by type reconciliation, not as malformed; by
grammar construction at most one of the modifiers
negatable/counting/sequence is carried (the third group is one
character), while the optional marker can co-occur with one of them. -/
theorem c2_modifier_grammar :
    (∀ (s n g2 g3 : Str), matchDesc s = some (n, g2, g3) →
        g3 = [] ∨ g3 = ['!'] ∨ g3 = ['+'] ∨ g3 = ['@']) ∧
      parseOption newOptionCollection (tk "flag=b!") (.ptr ⟨.sBool, 0⟩)
        = .ok (addNegatableHandler newOptionCollection (tk "flag") 0) ∧
      parseOption newOptionCollection (tk "flag=b!") (.ptr ⟨.sInt, 0⟩)
        = .error .typeMismatch ∧
      matchDesc (tk "flag:b!") = some (tk "flag", tk ":b", tk "!") :=
  ⟨matchDesc_g3, rfl, rfl, by decide⟩

/-- Witness for the amended C2 at a concrete sequence descriptor. -/
theorem c2_modifier_grammar_witness :
    matchDesc (tk "seq=i@") = some (tk "seq", tk "=i", tk "@") ∧
      (tk "@" = [] ∨ tk "@" = ['!'] ∨ tk "@" = ['+'] ∨ tk "@" = ['@']) :=
  ⟨by decide, c2_modifier_grammar.1 (tk "seq=i@") (tk "seq") (tk "=i") (tk "@") (by decide)⟩

/-- Helper: the reconciliation chain returns success or the
type-mismatch error, nothing else. -/
theorem reconcile_cases (dT pT : Char) (cnt neg dArr pArr optM : Bool) :
    reconcile dT pT cnt neg dArr pArr optM = .ok () ∨
      reconcile dT pT cnt neg dArr pArr optM = .error .typeMismatch := by
  unfold reconcile
  split_ifs <;> simp

/-- Helper: the conflict check returns success or the name-conflict
error, nothing else. -/
theorem checkNameConflict_cases (oc : OptionCollection) (name : Str) (neg : Bool) :
    checkNameConflict oc name neg = .ok () ∨
      checkNameConflict oc name neg = .error .nameConflict := by
  unfold checkNameConflict
  split_ifs <;> simp

/-- Helper: on the seven supported shapes the reconciliation chain of
the source fails exactly when one of the five rules written from the
spec is violated. -/
theorem reconcile_error_iff (dT : Char) (cnt neg dArr optM : Bool) (sh : Shape) :
    reconcile dT (shapeInfo sh).1 cnt neg dArr (shapeInfo sh).2 optM
        = .error .typeMismatch ↔
      specTypeMismatch dT neg cnt optM dArr sh := by
  cases sh <;>
    (unfold reconcile
     split_ifs <;>
       simp_all [specTypeMismatch, specElemKind, specIsSeq, shapeInfo])

/-- C3: for every grammatically valid descriptor, registration against
a destination that is not one of the seven supported pointer shapes
fails with the unsupported-type error, and registration against a
supported pointer fails with the type-mismatch error exactly when at
least one reconciliation rule, as worded by the spec, is violated. -/
theorem c3_type_errors (oc : OptionCollection) (desc : Str) (name g2 g3 : Str)
    (neg cnt dArr : Bool) (d : Dest) (s : Str)
    (hm : matchDesc desc = some (name, g2, g3))
    (hmods : parseMods g3 = .ok (neg, cnt, dArr)) :
    parseOption oc desc (.str s) = .error .typeNotRecognized ∧
      parseOption oc desc .other = .error .typeNotRecognized ∧
      (parseOption oc desc (.ptr d) = .error .typeMismatch ↔
        specTypeMismatch (parseTypePart g2).2 neg cnt (parseTypePart g2).1 dArr d.shape) := by
  unfold parseOption
  simp only [hm, hmods]
  cases hpt : parseTypePart g2 with
  | mk optM dT =>
    refine ⟨by trivial, by trivial, ?_⟩
    rcases reconcile_cases dT (shapeInfo d.shape).1 cnt neg dArr (shapeInfo d.shape).2 optM
      with hr | hr
    · have hnspec : ¬ specTypeMismatch dT neg cnt optM dArr d.shape := by
        intro hs
        have hcontra := (reconcile_error_iff dT cnt neg dArr optM d.shape).2 hs
        rw [hr] at hcontra
        exact Except.noConfusion hcontra
      rw [hr]
      constructor
      · intro hcon
        rcases checkNameConflict_cases oc name neg with hc | hc <;>
          rw [hc] at hcon <;> simp at hcon
      · intro hs
        exact absurd hs hnspec
    · rw [hr]
      constructor
      · intro _
        exact (reconcile_error_iff dT cnt neg dArr optM d.shape).1 hr
      · intro _
        rfl

/-- Witness for C3 at a concrete boolean-typed descriptor bound to an
integer pointer and to a non-pointer value. -/
theorem c3_type_errors_witness :
    parseOption newOptionCollection (tk "flag=b") (.str (tk "x"))
        = .error .typeNotRecognized ∧
      (parseOption newOptionCollection (tk "flag=b") (.ptr ⟨.sInt, 0⟩)
          = .error .typeMismatch ↔
        specTypeMismatch 'b' false false false false .sInt) :=
  ⟨(c3_type_errors newOptionCollection (tk "flag=b") (tk "flag") (tk "=b") [] false false
      false ⟨.sInt, 0⟩ (tk "x") (by decide) rfl).1,
   (c3_type_errors newOptionCollection (tk "flag=b") (tk "flag") (tk "=b") [] false false
      false ⟨.sInt, 0⟩ (tk "x") (by decide) rfl).2.2⟩

/-- Witness for C4 at a concrete duplicate registration. -/
theorem c4_name_conflict_witness :
    parseOption ⟨[(tk "flag", .simpleH .noArg true 0)], []⟩ (tk "flag") (.ptr ⟨.sBool, 1⟩)
      = .error .nameConflict :=
  c4_name_conflict.1 ⟨[(tk "flag", .simpleH .noArg true 0)], []⟩ (tk "flag")
    (.ptr ⟨.sBool, 1⟩) (tk "flag") [] [] (by decide) (by decide) (by decide)

/-- Witness for C9 at a concrete required-integer option. -/
theorem c9_empty_inline_value_witness :
    (processArgsLoop [(tk "num", .intH .requiredArg 0)] [tk "--num="] []
        ≠ .error .missingArgument) ∧
      processArgsLoop [(tk "num", .intH .requiredArg 0)] [tk "--num"] []
        = .error .missingArgument :=
  ⟨(c9_empty_inline_value [(tk "num", .intH .requiredArg 0)] (tk "num") [] []
      (.intH .requiredArg 0) (by decide) (by decide) rfl).1,
   (c9_empty_inline_value [(tk "num", .intH .requiredArg 0)] (tk "num") [] []
      (.intH .requiredArg 0) (by decide) (by decide) rfl).2.1 rfl⟩

end GetOpt
